import Mathlib

/-!
Shallow embedding of the chat-langchain front-end chat component:
the `ChatWindow` container (message submission and streaming-response
accumulation) and the `ChatMessageBubble` component (source
de-duplication, inline-citation resolution, and feedback submission).

External collaborators (the HTTP API, the markdown engine `marked`,
toasts, DOM effects) are represented by parameters and effect records;
everything else is translated directly from the TypeScript source.
-/

namespace ChatLangChain

/-- Citation source attached to an assistant response.  The `Source` type
itself lives in `SourceBubble.tsx` (not part of this tree); per the spec it
is a URL plus display metadata, and only `url` is inspected by the code
embedded here. -/
structure Source where
  url : String
  title : String
deriving DecidableEq, Inhabited

/-- Message role: one of the fixed set in the `Message` type. -/
inductive Role where
  | system
  | user
  | assistant
  | function
deriving DecidableEq

/-- The `Message` record of `ChatMessageBubble.tsx` (fields used by the
embedded code; `runId` and `sources` are optional, `none` = absent). -/
structure Message where
  id : String
  content : String
  role : Role
  runId : Option String
  sources : Option (List Source)
deriving DecidableEq

/-- Result record of `filterSources`: the de-duplicated source list and the
original-index-to-resolved-index map (a JS `Map<number, number>`, embedded
as an association list with the most recent binding first). -/
structure FilterResult where
  urlMap : List (String × Nat)
  indexMap : List (Nat × Nat)
  filtered : List Source
deriving DecidableEq

/-- One iteration of the `sources.forEach((source, i) => ...)` loop in
`filterSources`: a URL not yet in `urlMap` is recorded with its original
index `i` and the source is appended to `filtered` with
`indexMap[i] = filtered.length`; a repeated URL only records
`indexMap[i] = urlMap.get(url)` (the original index stored for the URL). -/
def filterStep (acc : FilterResult) (i : Nat) (source : Source) : FilterResult :=
  match acc.urlMap.lookup source.url with
  | none =>
      { urlMap := (source.url, i) :: acc.urlMap
        indexMap := (i, acc.filtered.length) :: acc.indexMap
        filtered := acc.filtered ++ [source] }
  | some index =>
      { acc with indexMap := (i, index) :: acc.indexMap }

/-- `filterSources` of `ChatMessageBubble.tsx`. -/
def filterSources (sources : List Source) : FilterResult :=
  (sources.enum).foldl (fun acc p => filterStep acc p.1 p.2) ⟨[], [], []⟩

/-- One regex match of `/\[\^?(\d+)\^?\]/g` against the message content:
its start position, its matched text (`match[0]`), and the parsed capture
group (`parseInt(match[1], 10)`). Content is embedded as its character
list, so positions count characters. -/
structure CMatch where
  index : Nat
  raw : List Char
  num : Nat
deriving DecidableEq

/-- Rendered output element of `createAnswerElements`: either a `span`
carrying raw HTML text, or an `InlineCitation` for a resolved source. -/
inductive Element where
  | rawHtml (content : List Char)
  | citation (sourceNumber : Nat) (source : Source)
deriving DecidableEq

/-- The body of the `matches.forEach` loop in `createAnswerElements`,
threading the element list and `prevIndex`: the resolved number is
`sourceIndexMap.get(sourceNum) ?? 10`; when it is below the filtered list
length the preceding text span and an `InlineCitation` are pushed and
`prevIndex` advances past the match, otherwise nothing happens and the
marker text is left to the surrounding spans. -/
def answerStep (content : List Char) (filteredSources : List Source)
    (sourceIndexMap : List (Nat × Nat)) (st : List Element × Nat) (m : CMatch) :
    List Element × Nat :=
  let resolvedNum := (sourceIndexMap.lookup m.num).getD 10
  if h : resolvedNum < filteredSources.length then
    (st.1 ++ [Element.rawHtml ((content.drop st.2).take (m.index - st.2)),
              Element.citation resolvedNum (filteredSources.get ⟨resolvedNum, h⟩)],
     m.index + m.raw.length)
  else
    st

/-- `createAnswerElements` of `ChatMessageBubble.tsx`, over the matches of
the citation regex in `content`: the forEach loop followed by the final
push of the remaining content slice. -/
def createAnswerElements (content : List Char) (filteredSources : List Source)
    (sourceIndexMap : List (Nat × Nat)) (ms : List CMatch) : List Element :=
  let st := ms.foldl (answerStep content filteredSources sourceIndexMap) ([], 0)
  st.1 ++ [Element.rawHtml (content.drop st.2)]

/-- The citation elements of a rendered element list, with their resolved
source numbers, in order. -/
def citationsOf : List Element → List (Nat × Source)
  | [] => []
  | Element.citation n s :: rest => (n, s) :: citationsOf rest
  | Element.rawHtml _ :: rest => citationsOf rest

/-- JavaScript `String.prototype.trim()`: strip whitespace from both ends,
embedded over the string's character list. -/
def jsTrim (s : String) : String :=
  ⟨(((s.data.dropWhile Char.isWhitespace).reverse.dropWhile Char.isWhitespace).reverse)⟩

/-- The React state of `ChatWindow`: `messages`, `input`, `isLoading`, and
`chatHistory` (a list of human/ai text pairs). -/
structure ChatState where
  messages : List Message
  input : String
  isLoading : Bool
  chatHistory : List (String × String)
deriving DecidableEq

/-- Body of the `POST {base}/chat` request issued by `sendMessage`:
`{message, history, conversation_id}`. -/
structure ChatRequest where
  message : String
  history : List (String × String)
  conversation_id : String
deriving DecidableEq

/-- Outcome of a `sendMessage` call up to the point where streaming starts:
either an early return with no request (`noop`), a thrown fetch with the
optimistic update rolled back (`failed`), or a request in flight with the
post-submission state (`streaming`). -/
inductive SendResult where
  | noop (s : ChatState)
  | failed (s : ChatState)
  | streaming (req : ChatRequest) (s : ChatState)
deriving DecidableEq

/-- The request carried by a `SendResult`, if one was issued. -/
def requestOf : SendResult → Option ChatRequest
  | SendResult.noop _ => none
  | SendResult.failed _ => none
  | SendResult.streaming req _ => some req

/-- `sendMessage` of `ChatWindow`, from the guards through the `fetch`
`try/catch`.  `conversationId` is the component's uuid, `newMsgId` stands
for `Math.random().toString()`, `fetchFails` tells whether the `fetch`
throws.  While loading, or when the effective message is empty, it returns
untouched; otherwise the input is cleared, the user message appended and
the loading flag set before the fetch; a throwing fetch drops the appended
message, clears the flag and restores the input to the submitted text. -/
def sendMessage (conversationId newMsgId : String) (fetchFails : Bool)
    (message? : Option String) (s : ChatState) : SendResult :=
  if s.isLoading then SendResult.noop s
  else
    let messageValue := message?.getD s.input
    if messageValue = "" then SendResult.noop s
    else
      let s1 : ChatState :=
        { s with
          input := ""
          messages := s.messages ++ [⟨newMsgId, messageValue, Role.user, none, none⟩]
          isLoading := true }
      if fetchFails then
        SendResult.failed
          { s1 with
            messages := s1.messages.dropLast
            isLoading := false
            input := messageValue }
      else
        SendResult.streaming ⟨messageValue, s.chatHistory, conversationId⟩ s1

/-- One newline-delimited JSON object from the response stream, already
parsed: the branches of the `"tok" in parsed` / `"run_id" in parsed` /
`"sources" in parsed` dispatch (`other` covers objects with none of the
three keys, which the loop ignores). -/
inductive StreamLine where
  | tok (s : String)
  | runLine (r : String)
  | sourcesLine (ss : List Source)
  | other
deriving DecidableEq

/-- The mutable locals of the streaming closure in `sendMessage`:
`accumulatedMessage`, `runId`, `sources`, `messageIndex`. -/
structure StreamAcc where
  accumulatedMessage : String
  runId : Option String
  sources : Option (List Source)
  messageIndex : Option Nat
deriving DecidableEq

/-- Initial values of the streaming locals. -/
def initAcc : StreamAcc := ⟨"", none, none, none⟩

/-- Processing of one parsed line inside the `.map` over a decoded chunk:
token fragments are appended to the buffer, `run_id` and `sources` replace
the retained values, anything else is ignored. -/
def processLine (acc : StreamAcc) : StreamLine → StreamAcc
  | StreamLine.tok s => { acc with accumulatedMessage := acc.accumulatedMessage ++ s }
  | StreamLine.runLine r => { acc with runId := some r }
  | StreamLine.sourcesLine ss => { acc with sources := some ss }
  | StreamLine.other => acc

/-- The assistant message pushed or rewritten by `processText`'s
`setMessages` updater: content is the full buffer reparsed by the markdown
formatter `mp` (`marked.parse`) and trimmed, with the retained run id and
sources. -/
def assistantMessage (newId : String) (mp : String → String) (acc : StreamAcc) : Message :=
  ⟨newId, jsTrim (mp acc.accumulatedMessage), Role.assistant, acc.runId, acc.sources⟩

/-- In-place field update of the message at a position, as performed by
`newMessages[messageIndex].content = ...` on the copied array. -/
def updateAt : List Message → Nat → (Message → Message) → List Message
  | [], _, _ => []
  | m :: rest, 0, f => f m :: rest
  | m :: rest, n + 1, f => m :: updateAt rest n f

/-- One non-final `processText` step on a decoded chunk (its parsed lines):
fold the lines into the accumulator, reparse the whole buffer through the
formatter, then upsert the single assistant slot — pushed at the current
end of the list on the first chunk (recording `messageIndex`), rewritten in
place afterwards — and clear the loading flag. -/
def processChunk (mp : String → String) (newId : String)
    (p : ChatState × StreamAcc) (lines : List StreamLine) : ChatState × StreamAcc :=
  let acc1 := lines.foldl processLine p.2
  let parsedResult := mp acc1.accumulatedMessage
  match acc1.messageIndex with
  | none =>
      ({ p.1 with
          messages := p.1.messages ++ [assistantMessage newId mp acc1]
          isLoading := false },
       { acc1 with messageIndex := some p.1.messages.length })
  | some idx =>
      ({ p.1 with
          messages := updateAt p.1.messages idx fun m =>
            { m with
              content := jsTrim parsedResult
              runId := acc1.runId
              sources := acc1.sources }
          isLoading := false },
       acc1)

/-- The chained `reader.read().then(processText)` continuations over the
non-final chunks of a response stream. -/
def processChunks (mp : String → String) (newId : String)
    (p : ChatState × StreamAcc) (chunks : List (List StreamLine)) : ChatState × StreamAcc :=
  chunks.foldl (processChunk mp newId) p

/-- The `done` branch of `processText`: append the exchange (submitted
text, raw accumulated buffer) to the conversation history. -/
def finishStream (messageValue : String) (p : ChatState × StreamAcc) : ChatState × StreamAcc :=
  ({ p.1 with chatHistory := p.1.chatHistory ++ [(messageValue, p.2.accumulatedMessage)] }, p.2)

/-- A whole streamed response: the non-final chunks in order, then — when
the stream reports `done` rather than erroring — the completion step. -/
def runStream (mp : String → String) (newId messageValue : String)
    (s : ChatState) (chunks : List (List StreamLine)) (done : Bool) : ChatState × StreamAcc :=
  let p := processChunks mp newId (s, initAcc) chunks
  if done then finishStream messageValue p else p

/-- Concatenation, in arrival order, of the `tok` fields of the
token-fragment lines. -/
def toksOf : List StreamLine → String
  | [] => ""
  | StreamLine.tok s :: rest => s ++ toksOf rest
  | _ :: rest => toksOf rest

/-- First-of-two on options: the first argument when present, otherwise
the second.  Used to express last-seen retention. -/
def lastOr {α : Type} (new old : Option α) : Option α :=
  match new with
  | some x => some x
  | none => old

/-- The `run_id` value of the last-seen run-identifier line, if any. -/
def lastRunId : List StreamLine → Option String
  | [] => none
  | StreamLine.runLine r :: rest => lastOr (lastRunId rest) (some r)
  | _ :: rest => lastRunId rest

/-- The `sources` value of the last-seen sources line, if any. -/
def lastSources : List StreamLine → Option (List Source)
  | [] => none
  | StreamLine.sourcesLine ss :: rest => lastOr (lastSources rest) (some ss)
  | _ :: rest => lastSources rest

/-- A stored feedback record: what `setFeedback` keeps after a successful
submission. -/
structure FeedbackRecord where
  feedback_id : String
  run_id : String
  key : String
  score : Int
deriving DecidableEq

/-- The React state of `ChatMessageBubble` touched by feedback handling. -/
structure BubbleState where
  isLoading : Bool
  feedback : Option FeedbackRecord
  comment : String
  feedbackColor : String
deriving DecidableEq

/-- HTTP method of the feedback request. -/
inductive Method where
  | post
  | patch
deriving DecidableEq

/-- Body of the `{base}/feedback` request:
`{score, run_id, key, feedback_id, comment}`. -/
structure FeedbackRequest where
  score : Int
  run_id : String
  key : String
  feedback_id : String
  comment : String
deriving DecidableEq

/-- Observable outcome of a feedback interaction: the new component state,
the request issued (if any) with its method, and the toasts shown. -/
structure FeedbackResult where
  state : BubbleState
  request : Option (Method × FeedbackRequest)
  toasts : List String
deriving DecidableEq

/-- `sendFeedback` of `ChatMessageBubble`.  `runId?` is the message's
`runId` prop, `newId` stands for `uuidv4()`, `errMsg` for the message of a
thrown error, and `outcome` is the parsed response: `none` when the fetch
or JSON parse throws, `some code` for the response's `code` field.  The
method is `PATCH` exactly when a stored feedback id is truthy (non-empty);
on `code === 200` the feedback record is stored and a non-empty comment
cleared; a thrown error is toasted; the flag is cleared at the end. -/
def sendFeedback (runId? : Option String) (newId errMsg : String)
    (outcome : Option Int) (score : Int) (key : String) (b : BubbleState) : FeedbackResult :=
  match runId? with
  | none => ⟨b, none, []⟩
  | some run_id =>
    if b.isLoading then ⟨b, none, []⟩
    else
      let feedback_id :=
        match b.feedback with
        | some fb => fb.feedback_id
        | none => newId
      let method :=
        match b.feedback with
        | some fb => if fb.feedback_id = "" then Method.post else Method.patch
        | none => Method.post
      let req : FeedbackRequest := ⟨score, run_id, key, feedback_id, b.comment⟩
      match outcome with
      | none =>
          ⟨{ b with isLoading := false }, some (method, req), [errMsg]⟩
      | some code =>
          if code = 200 then
            ⟨{ b with
                feedback := some ⟨feedback_id, run_id, key, score⟩
                comment := if b.comment = "" then b.comment else ""
                isLoading := false },
             some (method, req), []⟩
          else
            ⟨{ b with isLoading := false }, some (method, req), []⟩

/-- The `onClick` handler shared by the two feedback buttons: when no
feedback is stored and the message's `runId` is truthy it calls
`sendFeedback` with the button's score and key `"user_score"` and sets the
feedback color; otherwise it only toasts the already-provided notice. -/
def onFeedbackClick (runId? : Option String) (newId errMsg : String)
    (outcome : Option Int) (score : Int) (color : String) (b : BubbleState) : FeedbackResult :=
  match b.feedback, runId? with
  | none, some r =>
      if r = "" then ⟨b, none, ["You have already provided your feedback."]⟩
      else
        let res := sendFeedback (some r) newId errMsg outcome score "user_score" b
        ⟨{ res.state with feedbackColor := color }, res.request, res.toasts⟩
  | _, _ => ⟨b, none, ["You have already provided your feedback."]⟩

/-- The method the spec prescribes: `PATCH` when a feedback record (hence a
feedback id) already exists, `POST` otherwise. -/
def feedbackMethod : Option FeedbackRecord → Method
  | some _ => Method.patch
  | none => Method.post

/-- The feedback id used for a submission: the stored one when a record
exists, otherwise the freshly generated uuid. -/
def feedbackIdOf : Option FeedbackRecord → String → String
  | some fb, _ => fb.feedback_id
  | none, newId => newId


/-! ### Supporting lemmas -/

theorem lastOr_none_right {α : Type} (a : Option α) : lastOr a none = a := by
  cases a <;> rfl

theorem lastOr_some {α : Type} (x : α) (c : Option α) : lastOr (some x) c = some x := rfl

theorem lastOr_lastOr {α : Type} (a b c : Option α) :
    lastOr (lastOr a b) c = lastOr a (lastOr b c) := by
  cases a <;> rfl

theorem toksOf_append (xs ys : List StreamLine) :
    toksOf (xs ++ ys) = toksOf xs ++ toksOf ys := by
  induction xs with
  | nil => simp [toksOf, String.empty_append]
  | cons ln rest ih => cases ln <;> simp [toksOf, ih, String.append_assoc]

theorem lastRunId_append (xs ys : List StreamLine) :
    lastRunId (xs ++ ys) = lastOr (lastRunId ys) (lastRunId xs) := by
  induction xs with
  | nil => simp [lastRunId, lastOr_none_right]
  | cons ln rest ih => cases ln <;> simp [lastRunId, ih, lastOr_lastOr]

theorem lastSources_append (xs ys : List StreamLine) :
    lastSources (xs ++ ys) = lastOr (lastSources ys) (lastSources xs) := by
  induction xs with
  | nil => simp [lastSources, lastOr_none_right]
  | cons ln rest ih => cases ln <;> simp [lastSources, ih, lastOr_lastOr]

theorem foldl_processLine (lines : List StreamLine) : ∀ acc : StreamAcc,
    lines.foldl processLine acc =
      ⟨acc.accumulatedMessage ++ toksOf lines,
       lastOr (lastRunId lines) acc.runId,
       lastOr (lastSources lines) acc.sources,
       acc.messageIndex⟩ := by
  induction lines with
  | nil =>
      intro acc
      simp [toksOf, lastRunId, lastSources, lastOr, String.append_empty]
  | cons ln rest ih =>
      intro acc
      cases ln with
      | tok t =>
          simp [processLine, toksOf, lastRunId, lastSources, ih, String.append_assoc]
      | runLine r =>
          simp only [List.foldl_cons, processLine, ih, toksOf, lastRunId, lastSources]
          cases lastRunId rest <;> simp [lastOr]
      | sourcesLine ss =>
          simp only [List.foldl_cons, processLine, ih, toksOf, lastRunId, lastSources]
          cases lastSources rest <;> simp [lastOr]
      | other =>
          simp [processLine, toksOf, lastRunId, lastSources, ih]

theorem updateAt_append_length (l : List Message) (a : Message) (f : Message → Message) :
    updateAt (l ++ [a]) l.length f = l ++ [f a] := by
  induction l with
  | nil => rfl
  | cons m rest ih => simp [updateAt, ih]

theorem processChunk_first (mp : String → String) (nid : String)
    (msgs : List Message) (inp : String) (ld : Bool) (hist : List (String × String))
    (acc : StreamAcc) (c : List StreamLine) (h : acc.messageIndex = none) :
    processChunk mp nid (ChatState.mk msgs inp ld hist, acc) c =
      (ChatState.mk (msgs ++ [assistantMessage nid mp (c.foldl processLine acc)])
        inp false hist,
       { c.foldl processLine acc with messageIndex := some msgs.length }) := by
  have hmi : (c.foldl processLine acc).messageIndex = none := by
    rw [foldl_processLine]; exact h
  simp only [processChunk, hmi]

theorem processChunk_update (mp : String → String) (nid : String)
    (msgs : List Message) (inp : String) (ld : Bool) (hist : List (String × String))
    (acc : StreamAcc) (c : List StreamLine) (idx : Nat) (h : acc.messageIndex = some idx) :
    processChunk mp nid (ChatState.mk msgs inp ld hist, acc) c =
      (ChatState.mk
        (updateAt msgs idx fun m =>
          { m with
            content := jsTrim (mp (c.foldl processLine acc).accumulatedMessage)
            runId := (c.foldl processLine acc).runId
            sources := (c.foldl processLine acc).sources })
        inp false hist,
       c.foldl processLine acc) := by
  have hmi : (c.foldl processLine acc).messageIndex = some idx := by
    rw [foldl_processLine]; exact h
  simp only [processChunk, hmi]

theorem processChunks_upd (mp : String → String) (nid : String)
    (chunks : List (List StreamLine)) :
    ∀ (base : List Message) (acc : StreamAcc) (inp : String)
      (hist : List (String × String)) (ld : Bool),
      acc.messageIndex = some base.length →
      processChunks mp nid
        (ChatState.mk (base ++ [assistantMessage nid mp acc]) inp ld hist, acc) chunks
      = (ChatState.mk
          (base ++ [assistantMessage nid mp (chunks.flatten.foldl processLine acc)])
          inp (ld && chunks.isEmpty) hist,
         chunks.flatten.foldl processLine acc) := by
  induction chunks with
  | nil =>
      intro base acc inp hist ld h
      simp [processChunks]
  | cons c rest ih =>
      intro base acc inp hist ld h
      have hmi : (c.foldl processLine acc).messageIndex = some base.length := by
        rw [foldl_processLine]; exact h
      have hslot :
          updateAt (base ++ [assistantMessage nid mp acc]) base.length
            (fun m =>
              { m with
                content := jsTrim (mp (c.foldl processLine acc).accumulatedMessage)
                runId := (c.foldl processLine acc).runId
                sources := (c.foldl processLine acc).sources })
          = base ++ [assistantMessage nid mp (c.foldl processLine acc)] := by
        rw [updateAt_append_length]; rfl
      have hstep := processChunk_update mp nid (base ++ [assistantMessage nid mp acc])
        inp ld hist acc c base.length h
      have hrest := ih base (c.foldl processLine acc) inp hist false hmi
      show processChunks mp nid
          (processChunk mp nid
            (ChatState.mk (base ++ [assistantMessage nid mp acc]) inp ld hist, acc) c)
          rest = _
      rw [hstep, hslot, hrest]
      simp [List.foldl_append]

theorem processChunks_run (mp : String → String) (nid : String) (s : ChatState)
    (chunks : List (List StreamLine)) (h : chunks ≠ []) :
    processChunks mp nid (s, initAcc) chunks =
      (ChatState.mk
        (s.messages ++ [⟨nid, jsTrim (mp (toksOf chunks.flatten)), Role.assistant,
          lastRunId chunks.flatten, lastSources chunks.flatten⟩])
        s.input false s.chatHistory,
       ⟨toksOf chunks.flatten, lastRunId chunks.flatten, lastSources chunks.flatten,
        some s.messages.length⟩) := by
  obtain ⟨msgs, inp, ld, hist⟩ := s
  match chunks, h with
  | c :: rest, _ =>
    have hacc1 : c.foldl processLine initAcc
        = StreamAcc.mk (toksOf c) (lastRunId c) (lastSources c) none := by
      rw [foldl_processLine]
      simp [initAcc, lastOr_none_right, String.empty_append]
    have hfirst := processChunk_first mp nid msgs inp ld hist initAcc c rfl
    have hmi : (StreamAcc.mk (toksOf c) (lastRunId c) (lastSources c)
        (some msgs.length)).messageIndex = some msgs.length := rfl
    have hrest := processChunks_upd mp nid rest msgs
      (StreamAcc.mk (toksOf c) (lastRunId c) (lastSources c) (some msgs.length))
      inp hist false hmi
    have hfinal :
        rest.flatten.foldl processLine
            (StreamAcc.mk (toksOf c) (lastRunId c) (lastSources c) (some msgs.length))
          = StreamAcc.mk (toksOf ((c :: rest).flatten)) (lastRunId ((c :: rest).flatten))
             (lastSources ((c :: rest).flatten)) (some msgs.length) := by
      rw [foldl_processLine]
      simp [toksOf_append, lastRunId_append, lastSources_append]
    show processChunks mp nid
        (processChunk mp nid (ChatState.mk msgs inp ld hist, initAcc) c) rest = _
    rw [hfirst, hacc1]
    rw [show ({ StreamAcc.mk (toksOf c) (lastRunId c) (lastSources c) none with
        messageIndex := some msgs.length } : StreamAcc)
      = StreamAcc.mk (toksOf c) (lastRunId c) (lastSources c) (some msgs.length) from rfl]
    rw [show assistantMessage nid mp
          (StreamAcc.mk (toksOf c) (lastRunId c) (lastSources c) none)
        = assistantMessage nid mp
          (StreamAcc.mk (toksOf c) (lastRunId c) (lastSources c) (some msgs.length))
      from rfl]
    rw [hrest, hfinal]
    simp [assistantMessage]

theorem citationsOf_append (l1 l2 : List Element) :
    citationsOf (l1 ++ l2) = citationsOf l1 ++ citationsOf l2 := by
  induction l1 with
  | nil => rfl
  | cons e rest ih => cases e <;> simp [citationsOf, ih]

theorem getD_of_lt {α : Type} [Inhabited α] (l : List α) (n : Nat) (h : n < l.length) :
    l.getD n default = l.get ⟨n, h⟩ := by
  simp [List.getD_eq_getElem?_getD, List.getElem?_eq_getElem h, List.get_eq_getElem]

theorem answer_fold_citations (content : List Char) (fs : List Source)
    (idxMap : List (Nat × Nat)) (ms : List CMatch) :
    ∀ (els : List Element) (pIdx : Nat),
      citationsOf ((ms.foldl (answerStep content fs idxMap) (els, pIdx)).1)
        = citationsOf els
          ++ (ms.filter fun m => (idxMap.lookup m.num).getD 10 < fs.length).map
              (fun m => ((idxMap.lookup m.num).getD 10,
                fs.getD ((idxMap.lookup m.num).getD 10) default)) := by
  induction ms with
  | nil => intro els pIdx; simp
  | cons m rest ih =>
      intro els pIdx
      by_cases h : (idxMap.lookup m.num).getD 10 < fs.length
      · rw [List.foldl_cons,
          show answerStep content fs idxMap (els, pIdx) m
            = (els ++ [Element.rawHtml ((content.drop pIdx).take (m.index - pIdx)),
                Element.citation ((idxMap.lookup m.num).getD 10)
                  (fs.get ⟨(idxMap.lookup m.num).getD 10, h⟩)],
               m.index + m.raw.length) by simp [answerStep, h]]
        rw [ih]
        rw [citationsOf_append]
        simp [citationsOf, List.filter_cons, h, getD_of_lt fs _ h]
      · rw [List.foldl_cons,
          show answerStep content fs idxMap (els, pIdx) m = (els, pIdx) by
            simp [answerStep, h]]
        rw [ih]
        simp [List.filter_cons, h]

theorem answer_fold_skip (content : List Char) (fs : List Source)
    (idxMap : List (Nat × Nat)) (ms : List CMatch) :
    ∀ st : List Element × Nat,
      (∀ m ∈ ms, fs.length ≤ (idxMap.lookup m.num).getD 10) →
      ms.foldl (answerStep content fs idxMap) st = st := by
  induction ms with
  | nil => intro st _; rfl
  | cons m rest ih =>
      intro st h
      have hm : ¬ ((idxMap.lookup m.num).getD 10 < fs.length) :=
        Nat.not_lt.mpr (h m (List.mem_cons_self m rest))
      rw [List.foldl_cons, show answerStep content fs idxMap st m = st by
        simp [answerStep, hm]]
      exact ih st fun m' hm' => h m' (List.mem_cons_of_mem m hm')

/-! ### Claims -/

/-- Claim C1 (code bug, evaluated at the failing input): on the source list
with urls `[a, a, b, b]`, the two `b` sources do collapse to the single
filtered entry at position 1, but `indexMap` sends the duplicate original
index 3 to 2 — the original index of `b`'s first occurrence, not the
collapsed entry's filtered index — so the citation marker `[3]` fails the
bounds check and renders as plain text instead of citing the collapsed
`b` entry, contrary to the claim. -/
theorem filterSources_duplicate_misresolves :
    (filterSources [⟨"a","s1"⟩, ⟨"a","s2"⟩, ⟨"b","s3"⟩, ⟨"b","s4"⟩]).filtered
        = [⟨"a","s1"⟩, ⟨"b","s3"⟩]
    ∧ (filterSources [⟨"a","s1"⟩, ⟨"a","s2"⟩, ⟨"b","s3"⟩, ⟨"b","s4"⟩]).indexMap.lookup 3
        = some 2
    ∧ createAnswerElements ("[3]".toList)
        (filterSources [⟨"a","s1"⟩, ⟨"a","s2"⟩, ⟨"b","s3"⟩, ⟨"b","s4"⟩]).filtered
        (filterSources [⟨"a","s1"⟩, ⟨"a","s2"⟩, ⟨"b","s3"⟩, ⟨"b","s4"⟩]).indexMap
        [⟨0, "[3]".toList, 3⟩]
        = [Element.rawHtml ("[3]".toList)] :=
  ⟨by decide, by decide, by decide⟩

/-- Claim C2 counterexample: with eleven distinct-URL sources, the marker
`[99]` — whose index 99 resolves to no position in the filtered list — is
rendered as a citation link to the filtered entry at position 10 (the
`?? 10` default), not as plain text. -/
theorem unresolved_marker_renders_citation :
    createAnswerElements ("[99]".toList)
      (filterSources [⟨"u0",""⟩,⟨"u1",""⟩,⟨"u2",""⟩,⟨"u3",""⟩,⟨"u4",""⟩,⟨"u5",""⟩,
        ⟨"u6",""⟩,⟨"u7",""⟩,⟨"u8",""⟩,⟨"u9",""⟩,⟨"u10",""⟩]).filtered
      (filterSources [⟨"u0",""⟩,⟨"u1",""⟩,⟨"u2",""⟩,⟨"u3",""⟩,⟨"u4",""⟩,⟨"u5",""⟩,
        ⟨"u6",""⟩,⟨"u7",""⟩,⟨"u8",""⟩,⟨"u9",""⟩,⟨"u10",""⟩]).indexMap
      [⟨0, "[99]".toList, 99⟩]
      = [Element.rawHtml [], Element.citation 10 ⟨"u10",""⟩, Element.rawHtml []] := by
  decide

/-- Claim C2 (amended): a marker becomes a citation link exactly when its
resolved value — `indexMap` lookup, defaulting to 10 when the index is not
in the map — is below the filtered list length, and it cites the filtered
entry at that resolved position; when every marker's resolved value is out
of range the whole content is rendered as a single plain-text span.  In
particular a marker whose index does not resolve renders as plain text iff
the filtered list has at most 10 entries. -/
theorem answerElements_citation_iff (content : List Char) (fs : List Source)
    (idxMap : List (Nat × Nat)) (ms : List CMatch) :
    citationsOf (createAnswerElements content fs idxMap ms)
      = (ms.filter fun m => (idxMap.lookup m.num).getD 10 < fs.length).map
          (fun m => ((idxMap.lookup m.num).getD 10,
            fs.getD ((idxMap.lookup m.num).getD 10) default))
    ∧ ((∀ m ∈ ms, fs.length ≤ (idxMap.lookup m.num).getD 10) →
        createAnswerElements content fs idxMap ms = [Element.rawHtml content]) := by
  constructor
  · show citationsOf ((ms.foldl (answerStep content fs idxMap) ([], 0)).1
        ++ [Element.rawHtml
            (content.drop (ms.foldl (answerStep content fs idxMap) ([], 0)).2)]) = _
    rw [citationsOf_append, answer_fold_citations]
    simp [citationsOf]
  · intro hall
    show (ms.foldl (answerStep content fs idxMap) ([], 0)).1
        ++ [Element.rawHtml
            (content.drop (ms.foldl (answerStep content fs idxMap) ([], 0)).2)] = _
    rw [answer_fold_skip content fs idxMap ms ([], 0) hall]
    simp

/-- Witness for C2 (amended) at a concrete input: one source, a marker
`[5]` that does not resolve — no citation element is produced and the
content renders as a single plain-text span. -/
theorem answerElements_citation_iff_witness :
    citationsOf (createAnswerElements ("[5]".toList) [⟨"u0",""⟩] [(0, 0)]
        [⟨0, "[5]".toList, 5⟩]) = []
    ∧ createAnswerElements ("[5]".toList) [⟨"u0",""⟩] [(0, 0)] [⟨0, "[5]".toList, 5⟩]
        = [Element.rawHtml ("[5]".toList)] := by
  have h := answerElements_citation_iff ("[5]".toList) [⟨"u0",""⟩] [(0, 0)]
    [⟨0, "[5]".toList, 5⟩]
  exact ⟨by rw [h.1]; decide, by rw [h.2 (by decide)]⟩

/-- Claim C3: when the chat fetch throws, `sendMessage` removes the
optimistically appended user message (so the message list equals the list
before submission), restores the input field to the submitted text, clears
the loading flag, leaves the history untouched, and issues no retry (the
result carries no further request). -/
theorem sendMessage_failure_rollback (cid nid : String) (m? : Option String)
    (s : ChatState) (hload : s.isLoading = false) (hne : m?.getD s.input ≠ "") :
    sendMessage cid nid true m? s = SendResult.failed { s with input := m?.getD s.input } := by
  unfold sendMessage
  rw [hload]
  simp [hne]

/-- Witness for C3 at a concrete state: the failed submission of "yo" rolls
the message list back and puts "yo" in the input field. -/
theorem sendMessage_failure_rollback_witness :
    sendMessage "c" "n" true (some "yo")
        ⟨[⟨"0", "x", Role.user, none, none⟩], "hi", false, []⟩
      = SendResult.failed ⟨[⟨"0", "x", Role.user, none, none⟩], "yo", false, []⟩ := by
  have h := sendMessage_failure_rollback "c" "n" (some "yo")
    ⟨[⟨"0", "x", Role.user, none, none⟩], "hi", false, []⟩ rfl (by decide)
  rw [h]
  rfl

/-- Claim C4: once a feedback record is stored for the message, a click on
either feedback button (any score) leaves the component state unchanged,
sends no feedback request, and shows the already-provided error notice. -/
theorem feedback_second_click_rejected (runId? : Option String) (newId errMsg : String)
    (outcome : Option Int) (score : Int) (color : String) (b : BubbleState)
    (fb : FeedbackRecord) (hfb : b.feedback = some fb) :
    onFeedbackClick runId? newId errMsg outcome score color b
      = ⟨b, none, ["You have already provided your feedback."]⟩ := by
  unfold onFeedbackClick
  rw [hfb]

/-- Witness for C4 at a concrete state with a stored feedback record. -/
theorem feedback_second_click_rejected_witness :
    onFeedbackClick (some "r") "f1" "err" (some 200) 1 "green"
        ⟨false, some ⟨"f0", "r", "user_score", 1⟩, "", ""⟩
      = ⟨⟨false, some ⟨"f0", "r", "user_score", 1⟩, "", ""⟩, none,
         ["You have already provided your feedback."]⟩ :=
  feedback_second_click_rejected (some "r") "f1" "err" (some 200) 1 "green"
    ⟨false, some ⟨"f0", "r", "user_score", 1⟩, "", ""⟩ ⟨"f0", "r", "user_score", 1⟩ rfl

/-- Claim C5: after processing any sequence of decoded chunks (each a list
of parsed newline-delimited objects), the accumulated buffer equals the
concatenation, in arrival order, of the `tok` fields of all token
fragments seen, and the retained run identifier and source list equal the
`run_id` and `sources` of the last-seen objects of those shapes (`none`
when none arrived). -/
theorem stream_accumulator_spec (mp : String → String) (nid : String) (s : ChatState)
    (chunks : List (List StreamLine)) :
    ((processChunks mp nid (s, initAcc) chunks).2).accumulatedMessage
        = toksOf chunks.flatten
    ∧ ((processChunks mp nid (s, initAcc) chunks).2).runId = lastRunId chunks.flatten
    ∧ ((processChunks mp nid (s, initAcc) chunks).2).sources = lastSources chunks.flatten := by
  cases chunks with
  | nil => exact ⟨rfl, rfl, rfl⟩
  | cons c rest =>
      rw [processChunks_run mp nid s (c :: rest) (by simp)]
      exact ⟨rfl, rfl, rfl⟩

/-- Claim C6: for every nonempty chunk sequence, exactly one assistant slot
is upserted, appended at the pre-stream end of the message list on the
first chunk and rewritten in place by every later chunk: its content is the
whole accumulated buffer re-run through the markdown formatter (a full
reparse) and trimmed, and its run id and sources are the last-seen values.
Holding for every chunk prefix, this describes the state after every
chunk. -/
theorem stream_single_slot_upsert (mp : String → String) (nid : String) (s : ChatState)
    (chunks : List (List StreamLine)) (h : chunks ≠ []) :
    processChunks mp nid (s, initAcc) chunks =
      ({ s with
          messages := s.messages
            ++ [⟨nid, jsTrim (mp (toksOf chunks.flatten)), Role.assistant,
              lastRunId chunks.flatten, lastSources chunks.flatten⟩]
          isLoading := false },
       ⟨toksOf chunks.flatten, lastRunId chunks.flatten, lastSources chunks.flatten,
        some s.messages.length⟩) :=
  processChunks_run mp nid s chunks h

/-- Witness for C6 on a two-chunk stream: a single assistant message is
appended, containing both token fragments reparsed as a whole. -/
theorem stream_single_slot_upsert_witness :
    processChunks (fun x => x) "m" (⟨[], "", true, []⟩, initAcc)
        [[StreamLine.tok "a"], [StreamLine.tok "b", StreamLine.runLine "r"]]
      = (⟨[⟨"m", "ab", Role.assistant, some "r", none⟩], "", false, []⟩,
         ⟨"ab", some "r", none, some 0⟩) := by
  have h := stream_single_slot_upsert (fun x => x) "m" ⟨[], "", true, []⟩
    [[StreamLine.tok "a"], [StreamLine.tok "b", StreamLine.runLine "r"]] (by decide)
  rw [h]
  decide

/-- Claim C7: when the stream runs to completion, exactly one entry — the
submitted text paired with the final accumulated assistant text — is
appended to the conversation history, and the next chat request carries
exactly that history in its body. -/
theorem stream_completion_appends_history (mp : String → String)
    (nid mv cid nid2 m2 : String) (s : ChatState) (chunks : List (List StreamLine))
    (hc : chunks ≠ []) (hm2 : m2 ≠ "") :
    (runStream mp nid mv s chunks true).1.chatHistory
        = s.chatHistory ++ [(mv, toksOf chunks.flatten)]
    ∧ requestOf (sendMessage cid nid2 false (some m2) (runStream mp nid mv s chunks true).1)
        = some ⟨m2, s.chatHistory ++ [(mv, toksOf chunks.flatten)], cid⟩ := by
  have h1 : (runStream mp nid mv s chunks true).1
      = ChatState.mk
          (s.messages ++ [⟨nid, jsTrim (mp (toksOf chunks.flatten)), Role.assistant,
            lastRunId chunks.flatten, lastSources chunks.flatten⟩])
          s.input false (s.chatHistory ++ [(mv, toksOf chunks.flatten)]) := by
    unfold runStream
    rw [processChunks_run mp nid s chunks hc]
    rfl
  refine ⟨by rw [h1], ?_⟩
  rw [h1]
  simp [sendMessage, hm2, requestOf]

/-- Witness for C7 on a one-chunk completed stream followed by a second
submission carrying the updated history. -/
theorem stream_completion_appends_history_witness :
    (runStream (fun x => x) "m" "q" ⟨[], "", true, []⟩ [[StreamLine.tok "a"]] true).1.chatHistory
        = [("q", "a")]
    ∧ requestOf (sendMessage "c" "n2" false (some "next")
        (runStream (fun x => x) "m" "q" ⟨[], "", true, []⟩ [[StreamLine.tok "a"]] true).1)
        = some ⟨"next", [("q", "a")], "c"⟩ := by
  have h := stream_completion_appends_history (fun x => x) "m" "q" "c" "n2" "next"
    ⟨[], "", true, []⟩ [[StreamLine.tok "a"]] (by decide) (by decide)
  exact ⟨by rw [h.1]; decide, by rw [h.2]; decide⟩

/-- Claim C8 counterexample: after the first chunk of a still-open stream
(the submit-time state had the loading flag set), the loading flag is
already false, and a second `sendMessage` call from that state does issue a
chat request — so the flag is not true until stream completion and a second
response stream can start while the first is in progress. -/
theorem loading_cleared_midstream :
    ((processChunks (fun x => x) "m"
        (⟨[⟨"u1", "hi", Role.user, none, none⟩], "", true, []⟩, initAcc)
        [[StreamLine.tok "He"]]).1).isLoading = false
    ∧ requestOf (sendMessage "c" "u2" false (some "again")
        ((processChunks (fun x => x) "m"
          (⟨[⟨"u1", "hi", Role.user, none, none⟩], "", true, []⟩, initAcc)
          [[StreamLine.tok "He"]]).1))
      = some ⟨"again", [], "c"⟩ :=
  ⟨by decide, by decide⟩

/-- Claim C8 (amended): a `sendMessage` call made while the loading flag is
true returns without sending a request or changing state, and submission
sets the flag; but the flag is cleared after each processed chunk rather
than at stream completion, so a second submission is blocked only until
the first chunk of the response is processed. -/
theorem loading_flag_amended :
    (∀ (cid nid : String) (ff : Bool) (m? : Option String) (s : ChatState),
        s.isLoading = true → sendMessage cid nid ff m? s = SendResult.noop s)
    ∧ (∀ (cid nid : String) (m? : Option String) (s : ChatState),
        s.isLoading = false → m?.getD s.input ≠ "" →
        sendMessage cid nid false m? s =
          SendResult.streaming ⟨m?.getD s.input, s.chatHistory, cid⟩
            { s with
              input := ""
              messages := s.messages ++ [⟨nid, m?.getD s.input, Role.user, none, none⟩]
              isLoading := true })
    ∧ (∀ (mp : String → String) (nid : String) (p : ChatState × StreamAcc)
        (lines : List StreamLine), ((processChunk mp nid p lines).1).isLoading = false) := by
  refine ⟨?_, ?_, ?_⟩
  · intro cid nid ff m? s h
    unfold sendMessage
    rw [h]
    simp
  · intro cid nid m? s h hne
    unfold sendMessage
    rw [h]
    simp [hne]
  · intro mp nid p lines
    unfold processChunk
    cases hmi : (lines.foldl processLine p.2).messageIndex <;> simp [hmi]

/-- Witness for C8 (amended) at concrete states: a loading state rejects a
submission, a non-loading one starts streaming with the flag set, and a
processed chunk clears the flag. -/
theorem loading_flag_amended_witness :
    sendMessage "c" "n" true none ⟨[], "q", true, []⟩ = SendResult.noop ⟨[], "q", true, []⟩
    ∧ sendMessage "c" "n" false none ⟨[], "q", false, []⟩
        = SendResult.streaming ⟨"q", [], "c"⟩
            ⟨[⟨"n", "q", Role.user, none, none⟩], "", true, []⟩
    ∧ ((processChunk (fun x => x) "m" (⟨[], "", true, []⟩, initAcc) []).1).isLoading
        = false := by
  refine ⟨loading_flag_amended.1 "c" "n" true none ⟨[], "q", true, []⟩ rfl, ?_,
    loading_flag_amended.2.2 (fun x => x) "m" (⟨[], "", true, []⟩, initAcc) []⟩
  have h := loading_flag_amended.2.1 "c" "n" none ⟨[], "q", false, []⟩ rfl (by decide)
  rw [h]
  rfl

/-- Claim C9: for a feedback submission with a defined run id from a
non-loading state (whose stored feedback id, if any, is a non-empty uuid),
the request body carries the score, run id, key, feedback id (the stored
one, else the fresh uuid) and comment, with method PATCH exactly when a
feedback id already exists and POST otherwise; the stored feedback record
is set to those values when the response carries `code === 200` and is left
unchanged on any other outcome (other code, or a thrown fetch/parse). -/
theorem sendFeedback_spec (r newId errMsg key : String) (score : Int)
    (outcome : Option Int) (b : BubbleState) (hload : b.isLoading = false)
    (hfb : ∀ fb, b.feedback = some fb → fb.feedback_id ≠ "") :
    (sendFeedback (some r) newId errMsg outcome score key b).request
        = some (feedbackMethod b.feedback,
            ⟨score, r, key, feedbackIdOf b.feedback newId, b.comment⟩)
    ∧ (outcome = some 200 →
        (sendFeedback (some r) newId errMsg outcome score key b).state.feedback
          = some ⟨feedbackIdOf b.feedback newId, r, key, score⟩)
    ∧ (outcome ≠ some 200 →
        (sendFeedback (some r) newId errMsg outcome score key b).state.feedback
          = b.feedback) := by
  unfold sendFeedback
  rw [hload]
  cases hb : b.feedback with
  | none =>
      cases outcome with
      | none => simp [feedbackMethod, feedbackIdOf]
      | some code =>
          by_cases h200 : code = 200 <;>
            simp [feedbackMethod, feedbackIdOf, h200]
  | some fb =>
      have hne : ¬ (fb.feedback_id = "") := hfb fb hb
      cases outcome with
      | none => simp [feedbackMethod, feedbackIdOf, hne]
      | some code =>
          by_cases h200 : code = 200 <;>
            simp [feedbackMethod, feedbackIdOf, hne, h200]

/-- Witness for C9: a first submission (no stored record) with a 200
response uses POST and stores the record. -/
theorem sendFeedback_spec_witness :
    (sendFeedback (some "r") "f1" "err" (some 200) 1 "user_score"
        ⟨false, none, "c", ""⟩).request
        = some (Method.post, ⟨1, "r", "user_score", "f1", "c"⟩)
    ∧ (sendFeedback (some "r") "f1" "err" (some 200) 1 "user_score"
        ⟨false, none, "c", ""⟩).state.feedback
        = some ⟨"f1", "r", "user_score", 1⟩ := by
  have h := sendFeedback_spec "r" "f1" "err" "user_score" 1 (some 200)
    ⟨false, none, "c", ""⟩ rfl (fun fb hfb => Option.noConfusion hfb)
  exact ⟨by rw [h.1]; rfl, by rw [h.2.1 rfl]; rfl⟩

/-- Claim C10: a `sendMessage` call with no explicit message while the
input field is empty is a no-op: no request is issued and the returned
state is the argument state unchanged (message list, history, input and
loading flag untouched). -/
theorem sendMessage_empty_noop (cid nid : String) (ff : Bool) (s : ChatState)
    (h : s.input = "") :
    sendMessage cid nid ff none s = SendResult.noop s := by
  cases hl : s.isLoading <;> simp [sendMessage, hl, h]

/-- Witness for C10 at a concrete empty-input state. -/
theorem sendMessage_empty_noop_witness :
    sendMessage "c" "n" false none ⟨[], "", false, []⟩
      = SendResult.noop ⟨[], "", false, []⟩ :=
  sendMessage_empty_noop "c" "n" false ⟨[], "", false, []⟩ rfl
